import Mathlib

/-!
Shallow embedding of src/js/pdfParser.js (the Calfy repository's sole source
file) and proofs about its specification claims.

The file models the three exported units of pdfParser.js:

* ensurePdfWorker (worker provisioning, lines 4-44), modelled by
  provisionWorker (the body of the one-shot async provisioning closure) and a
  small event-interleaving model for the process-wide at-most-once contract;
* extractPdfText (lines 46-111), modelled as a pure function from an explicit
  library/document model to the returned Document Result plus an observation
  trace (progress calls, number of open attempts, cleanup flag);
* harvestTables (lines 113-125), modelled directly, plus a dynamically-typed
  variant capturing JavaScript truthiness and the TypeError raised when a
  non-string text field is used.

JavaScript specifics are modelled explicitly: `x || y` on strings falls
through on the empty string, Boolean(s) is string non-emptiness,
Math.round((k/n)*100) is exact rational round-half-up (JavaScript computes it
in binary floating point, which agrees at every input used here), thrown
values are either Error objects carrying a message or arbitrary other values,
and String.prototype.split with the regex /(?<=\.)\s+|\n+/ is implemented as
a left-to-right scan with a one-character lookbehind.
-/

namespace PdfParser

/-- Characters matched by the JavaScript regex class \s (whitespace). -/
def isJsSpace (c : Char) : Bool :=
  c == ' ' || c == '\t' || c == '\n' || c == '\r' ||
  c == '\u000b' || c == '\u000c' || c == '\u00a0' || c == '\u1680' ||
  ('\u2000' ≤ c && c ≤ '\u200a') ||
  c == '\u2028' || c == '\u2029' || c == '\u202f' || c == '\u205f' ||
  c == '\u3000' || c == '\ufeff'

/-- A value thrown by JavaScript code: an Error object carrying a message
string, or any other value, carried as its string rendering. -/
inductive JsErr where
  | err (message : String)
  | other (rendered : String)
deriving DecidableEq, Repr

/-- Decidable equality for outcomes, used only to evaluate the model at
concrete inputs. -/
def exceptDecEq {e a : Type} [DecidableEq e] [DecidableEq a] :
    DecidableEq (Except e a)
  | .error x, .error y =>
    if h : x = y then isTrue (by rw [h])
    else isFalse (by intro hc; injection hc; contradiction)
  | .error _, .ok _ => isFalse (by intro hc; exact Except.noConfusion hc)
  | .ok _, .error _ => isFalse (by intro hc; exact Except.noConfusion hc)
  | .ok x, .ok y =>
    if h : x = y then isTrue (by rw [h])
    else isFalse (by intro hc; injection hc; contradiction)

instance {e a : Type} [DecidableEq e] [DecidableEq a] :
    DecidableEq (Except e a) := exceptDecEq

/-- Source line 58: error instanceof Error ? error.message : String(error). -/
def jsErrString : JsErr → String
  | .err m => m
  | .other s => s

/-- Source line 89: error instanceof Error ? error.message
: the literal fallback used for non-Error throws. -/
def pageErrorMessage : JsErr → String
  | .err m => m
  | .other _ => "Unknown parsing error"

/-- JavaScript `o || d` where o is a possibly-absent string: the default is
used when the field is absent or is the (falsy) empty string. -/
def jsOrString (o : Option String) (d : String) : String :=
  match o with
  | some s => if s = "" then d else s
  | none => d

/-- Whether the pattern list occurs at the head of the text list. -/
def listStartsWith : List Char → List Char → Bool
  | [], _ => true
  | _ :: _, [] => false
  | a :: as, b :: bs => a == b && listStartsWith as bs

/-- Whether the pattern list occurs contiguously anywhere in the text list. -/
def listContainsSub (pat : List Char) : List Char → Bool
  | [] => pat.isEmpty
  | c :: rest => listStartsWith pat (c :: rest) || listContainsSub pat rest

/-- Source line 59: the two case-insensitive worker-initialization failure
patterns, /Setting up fake worker failed/i and /Cannot load script/i, as
case-folded substring tests on the message. -/
def workerFailedPattern (m : String) : Bool :=
  listContainsSub "setting up fake worker failed".toList
    (m.toList.map Char.toLower) ||
  listContainsSub "cannot load script".toList
    (m.toList.map Char.toLower)

/-- Scanner for the whitespace-collapsing replace: the flag records whether
the scan is inside a whitespace run whose single replacement space has
already been emitted. -/
def collapseWsAux (inRun : Bool) : List Char → List Char
  | [] => []
  | c :: rest =>
    if isJsSpace c then
      if inRun then collapseWsAux true rest
      else ' ' :: collapseWsAux true rest
    else c :: collapseWsAux false rest

/-- Source line 77: the .replace with a whitespace-run regex and a single
space replacement — every maximal run of whitespace becomes one space. -/
def collapseWs (l : List Char) : List Char :=
  collapseWsAux false l

/-- JavaScript String.prototype.trim: strip leading and trailing whitespace. -/
def jsTrim (l : List Char) : List Char :=
  ((l.dropWhile isJsSpace).reverse.dropWhile isJsSpace).reverse

/-- Source line 77: content.items.map(item => item.str or the empty string
for a falsy field).join(a space), then whitespace collapse, then trim.
Each item is modelled by its optional str field. -/
def normalizeText (items : List (Option String)) : String :=
  String.mk (jsTrim (collapseWs
    (String.intercalate " " (items.map (fun o => o.getD ""))).toList))

/-- Source line 94: Math.round((k / n) * 100) for page k of n, as exact
rational rounding half-up, floor(100 k / n + 1/2) = (200 k + n) / (2 n). -/
def jsRound (k n : Nat) : Nat :=
  (200 * k + n) / (2 * n)

/-- One entry of the returned pages array (source lines 78-82 and 85-90). -/
structure PageResult where
  index : Nat
  text : String
  hasTextContent : Bool
  error : Option String
deriving DecidableEq, Repr

/-- One element of harvestTables output (source lines 120-123). -/
structure TableCandidate where
  page : Nat
  content : String
deriving DecidableEq, Repr

/-- The scan implementing the JavaScript split on /(?<=\.)\s+|\n+/
(source line 118).

The regex engine scans left to right: at each position it first tries the
lookbehind alternative — a maximal whitespace run immediately preceded by a
period — and otherwise a maximal run of newlines; each match is a delimiter.
Since the lookbehind only ever tests whether the previous character is a
period, the scanner state is that single fact; inWs and inNl are the two
greedy delimiter-consuming modes, and after a delimiter the previous
character is whitespace, never a period. -/
inductive SplitMode where
  | normal (prevIsPeriod : Bool)
  | inWs
  | inNl
deriving DecidableEq, Repr

def jsSplitAux (mode : SplitMode) : List Char → List Char → List (List Char)
  | [], acc => [acc.reverse]
  | c :: rest, acc =>
    match mode with
    | .normal prevIsPeriod =>
      if prevIsPeriod && isJsSpace c then
        acc.reverse :: jsSplitAux .inWs rest []
      else if c == '\n' then
        acc.reverse :: jsSplitAux .inNl rest []
      else
        jsSplitAux (.normal (c == '.')) rest (c :: acc)
    | .inWs =>
      if isJsSpace c then jsSplitAux .inWs rest acc
      else jsSplitAux (.normal (c == '.')) rest (c :: acc)
    | .inNl =>
      if c == '\n' then jsSplitAux .inNl rest acc
      else jsSplitAux (.normal (c == '.')) rest (c :: acc)

/-- text.split(/(?<=\.)\s+|\n+/) from source line 118. -/
def jsSentenceSplit (s : String) : List String :=
  (jsSplitAux (.normal false) s.toList []).map String.mk

/-- Source line 119: the line filter /\d/.test(line) && /[:,]/.test(line). -/
def lineIsCandidate (line : String) : Bool :=
  line.toList.any (fun c => c.isDigit) &&
  line.toList.any (fun c => c == ':' || c == ',')

/-- Source lines 118-123 for a single page: split, filter, tag. -/
def candidateLines (pageIndex : Nat) (text : String) : List TableCandidate :=
  ((jsSentenceSplit text).filter lineIsCandidate).map
    (fun line => { page := pageIndex, content := line })

/-- harvestTables, source lines 114-125. -/
def harvestTables (pages : List PageResult) : List TableCandidate :=
  (pages.filter (fun p => p.hasTextContent && p.text != "")).flatMap
    (fun p => candidateLines p.index p.text)

/-- The metadata info dictionary fields read by the extractor
(source lines 99 and 105); a field is absent or holds a string. -/
structure MetaInfo where
  Title : Option String
  Author : Option String
deriving DecidableEq, Repr

/-- The opened document session. getPage plus getTextContent for page k
(1-based) is merged into one outcome: a thrown value or the list of text
items, each item being its optional str field. getMetadata yields a thrown
value, null, or an object whose info dictionary is modelled (an object with
an absent info field behaves as the all-absent dictionary). -/
structure PdfDoc where
  numPages : Nat
  pageFn : Nat → Except JsErr (List (Option String))
  metadata : Except JsErr (Option MetaInfo)

/-- The input file handle (source lines 99, 108, 109). -/
structure FileLike where
  name : String
  size : Nat
  lastModified : Int
deriving DecidableEq, Repr

/-- The ambient pdf.js library as the extractor sees it: whether
window.pdfjsLib is loaded, the outcome of the first getDocument call, the
outcome of the retry getDocument call (consumed only on retry), and whether
the library currently exposes a boolean disableWorker property
(the guard on source line 65). -/
structure LibState where
  loaded : Bool
  open1 : Except JsErr PdfDoc
  open2 : Except JsErr PdfDoc
  disableWorkerIsBool : Bool

/-- The Document Result returned on success (source lines 103-110). -/
structure DocumentResult where
  title : String
  author : String
  totalPages : Nat
  pages : List PageResult
  rawSize : Nat
  lastModified : Int
deriving DecidableEq, Repr

/-- Observable side effects of one extractPdfText call: how many getDocument
attempts ran, whether disableWorker was set to true, how many pages the loop
processed, the values passed to onProgress in order, and whether
pdf.cleanup() ran. -/
structure ExtractTrace where
  openAttempts : Nat
  disabledWorker : Bool
  processedPages : Nat
  progressCalls : List Nat
  cleanedUp : Bool
deriving DecidableEq, Repr

/-- The page result pushed for page k (source lines 74-91): on success the
normalized text with hasTextContent = Boolean(text) and no error field, on a
throw the empty text, hasTextContent false and the captured message. -/
def pageResultOf (pageFn : Nat → Except JsErr (List (Option String)))
    (k : Nat) : PageResult :=
  match pageFn k with
  | .ok items =>
    let pageText := normalizeText items
    { index := k - 1, text := pageText, hasTextContent := pageText != "",
      error := none }
  | .error e =>
    { index := k - 1, text := "", hasTextContent := false,
      error := some (pageErrorMessage e) }

/-- Result of the page loop: page results pushed, onProgress values passed,
and the value thrown by the callback if it threw (aborting the loop). -/
structure LoopOut where
  pages : List PageResult
  progress : List Nat
  thrown : Option JsErr
deriving Repr

/-- The loop of source lines 73-96, over the list of page numbers still to
visit. The supplied callback model receives the page number (standing for
the callback's own count of calls, one per page — the JavaScript callback
sees only the percent value but may carry state) and the percent value, and
returns the value it throws, if any; a throw ends the loop at once. -/
def runPagesList (pageFn : Nat → Except JsErr (List (Option String)))
    (total : Nat) (cb : Option (Nat → Nat → Option JsErr)) :
    List Nat → LoopOut
  | [] => { pages := [], progress := [], thrown := none }
  | k :: ks =>
    let pr := pageResultOf pageFn k
    match cb with
    | none =>
      let rest := runPagesList pageFn total cb ks
      { pages := pr :: rest.pages, progress := rest.progress,
        thrown := rest.thrown }
    | some f =>
      let v := jsRound k total
      match f k v with
      | some e => { pages := [pr], progress := [v], thrown := some e }
      | none =>
        let rest := runPagesList pageFn total cb ks
        { pages := pr :: rest.pages, progress := v :: rest.progress,
          thrown := rest.thrown }

/-- The effective info dictionary of source line 98: the metadata object when
it resolved to one, and the empty dictionary when getMetadata rejected
(the .catch substitute) or resolved to a null-ish value (the trailing
fallback to the empty object). -/
def effectiveInfo (d : PdfDoc) : MetaInfo :=
  match d.metadata with
  | .ok (some i) => i
  | .ok none => { Title := none, Author := none }
  | .error _ => { Title := none, Author := none }

/-- Whether a four-character list is '.', then p, d, f in either case. -/
def pdfSuffix : List Char → Bool
  | ['.', c1, c2, c3] =>
    (c1 == 'p' || c1 == 'P') && (c2 == 'd' || c2 == 'D') &&
    (c3 == 'f' || c3 == 'F')
  | _ => false

/-- Source line 99: file.name with one trailing ".pdf" stripped,
case-insensitively (the regex replace with an end anchor). -/
def stripPdfExt (name : String) : String :=
  let cs := name.toList
  if pdfSuffix (cs.drop (cs.length - 4)) then
    String.mk (cs.take (cs.length - 4))
  else name

/-- Source lines 54-69: the first getDocument call, the worker-failure
message test, the guarded disableWorker write, and the single retry.
Returns the session or the propagated throw, whether disableWorker was set
to true, and how many getDocument calls ran. -/
def openAttempt (lib : LibState) : Except JsErr PdfDoc × Bool × Nat :=
  match lib.open1 with
  | .ok d => (.ok d, false, 1)
  | .error e =>
    if workerFailedPattern (jsErrString e) then
      (lib.open2, lib.disableWorkerIsBool, 2)
    else
      (.error e, false, 1)

/-- The page loop of one extraction: pages 1 through numPages in order. -/
def loopOut (d : PdfDoc) (cb : Option (Nat → Nat → Option JsErr)) : LoopOut :=
  runPagesList d.pageFn d.numPages cb (List.range' 1 d.numPages)

/-- Source lines 70-110 once a session is open: run the page loop, then
(unless the callback threw, which propagates before metadata and cleanup)
read metadata, derive title and author, clean up, and assemble the result. -/
def finishExtract (d : PdfDoc) (disabled : Bool) (attempts : Nat)
    (file : FileLike) (cb : Option (Nat → Nat → Option JsErr)) :
    Except JsErr DocumentResult × ExtractTrace :=
  match (loopOut d cb).thrown with
  | some e =>
    (.error e,
     { openAttempts := attempts, disabledWorker := disabled,
       processedPages := (loopOut d cb).pages.length,
       progressCalls := (loopOut d cb).progress,
       cleanedUp := false })
  | none =>
    (.ok { title := jsOrString (effectiveInfo d).Title (stripPdfExt file.name),
           author := jsOrString (effectiveInfo d).Author "Unknown author",
           totalPages := d.numPages, pages := (loopOut d cb).pages,
           rawSize := file.size, lastModified := file.lastModified },
     { openAttempts := attempts, disabledWorker := disabled,
       processedPages := (loopOut d cb).pages.length,
       progressCalls := (loopOut d cb).progress,
       cleanedUp := true })

/-- extractPdfText, source lines 46-111. The worker-provisioning await on
line 51 cannot throw once the library-missing check on line 47 has passed
(its only throw repeats that check), and only mutates the worker
configuration modelled separately below, so it contributes nothing here. -/
def extractPdfText (lib : LibState) (file : FileLike)
    (onProgress : Option (Nat → Nat → Option JsErr)) :
    Except JsErr DocumentResult × ExtractTrace :=
  if lib.loaded = false then
    (.error (JsErr.err "PDF.js library not loaded"),
     { openAttempts := 0, disabledWorker := false, processedPages := 0,
       progressCalls := [], cleanedUp := false })
  else
    match (openAttempt lib).1 with
    | .error e =>
      (.error e,
       { openAttempts := (openAttempt lib).2.2,
         disabledWorker := (openAttempt lib).2.1, processedPages := 0,
         progressCalls := [], cleanedUp := false })
    | .ok d =>
      finishExtract d (openAttempt lib).2.1 (openAttempt lib).2.2 file
        onProgress

/-- The pages list of an extraction outcome, empty on a throw. -/
def resultPages (x : Except JsErr DocumentResult) : List PageResult :=
  match x with
  | .ok r => r.pages
  | .error _ => []

/-- The remote worker script URL (source line 4). -/
def PDF_WORKER_SOURCE : String :=
  "https://cdnjs.cloudflare.com/ajax/libs/pdf.js/3.4.120/pdf.worker.min.js"

/-- The response of the fetch on source line 24: its ok flag and status, and
the outcome of reading its body as text. -/
structure FetchResp where
  ok : Bool
  status : Nat
  textResult : Except JsErr String
deriving Repr

/-- The environment the provisioning closure runs in: whether fetch, Blob and
URL.createObjectURL all exist (line 17-20), the outcome of the fetch, the
prior value of window.__pdfWorkerBlobUrl, and the URL createObjectURL would
mint for the inlined blob. -/
structure WorkerEnv where
  canInlineWorker : Bool
  fetchResult : Except JsErr FetchResp
  cachedBlobUrl : Option String
  newBlobUrl : String
deriving Repr

/-- The two globals the provisioning closure writes:
window.__pdfWorkerBlobUrl and GlobalWorkerOptions.workerSrc. -/
structure WorkerConfig where
  blobUrl : Option String
  workerSrc : Option String
deriving DecidableEq, Repr

/-- Source line 39: the fallback assignment
workerSrc = __pdfWorkerBlobUrl || PDF_WORKER_SOURCE, leaving the cached blob
URL untouched. -/
def fallbackConfig (env : WorkerEnv) : WorkerConfig :=
  { blobUrl := env.cachedBlobUrl,
    workerSrc := some (jsOrString env.cachedBlobUrl PDF_WORKER_SOURCE) }

/-- The body of the one-shot provisioning closure, source lines 16-40: try
to fetch and inline the worker script when the environment allows it, and on
any failure of that path fall back to the cached blob URL or the remote
URL. -/
def provisionWorker (env : WorkerEnv) : WorkerConfig :=
  if env.canInlineWorker then
    match env.fetchResult with
    | .ok resp =>
      if resp.ok = false then fallbackConfig env
      else
        match resp.textResult with
        | .ok _script =>
          { blobUrl := some env.newBlobUrl, workerSrc := some env.newBlobUrl }
        | .error _ => fallbackConfig env
    | .error _ => fallbackConfig env
  else fallbackConfig env

/-- Whether the inlining path of provisionWorker failed: a missing
environment capability, a rejected fetch, a non-ok response, or a body read
failure. -/
def workerFetchFailed (env : WorkerEnv) : Bool :=
  !env.canInlineWorker ||
  (match env.fetchResult with
   | .error _ => true
   | .ok resp =>
     !resp.ok ||
     (match resp.textResult with
      | .error _ => true
      | .ok _ => false))

/-- The process-wide state ensurePdfWorker manipulates: whether
GlobalWorkerOptions.workerSrc holds a truthy value, whether
pdfWorkerReadyPromise has been assigned, and how many provisioning attempts
have started. -/
structure WorkerGlobal where
  workerSrcSet : Bool
  promiseSet : Bool
  attempts : Nat
deriving DecidableEq, Repr

/-- Events of the interleaving model for ensurePdfWorker. JavaScript runs
one call's synchronous prefix — the null test of pdfWorkerReadyPromise on
line 15 through the assignment on line 16 — without any intervening await,
so that prefix is one atomic event; the provisioning body completing (which
always assigns workerSrc, line 32 or 39) and any external configuration of
workerSrc are the other events. -/
inductive WorkerEvent where
  | callPrefix
  | bodyComplete
  | externalConfigure
deriving DecidableEq, Repr

/-- One event's effect on the process-wide worker state. A call returns
early when workerSrc is already set (line 12), awaits the existing promise
when one is pending (line 15), and otherwise starts the one provisioning
attempt and stores its promise. -/
def workerStep (s : WorkerGlobal) : WorkerEvent → WorkerGlobal
  | .callPrefix =>
    if s.workerSrcSet then s
    else if s.promiseSet then s
    else { s with promiseSet := true, attempts := s.attempts + 1 }
  | .bodyComplete => { s with workerSrcSet := true }
  | .externalConfigure => { s with workerSrcSet := true }

/-- A whole process run: fold the events over the initial state
(no worker configured, no promise, no attempts). -/
def runWorkerEvents (evs : List WorkerEvent) : WorkerGlobal :=
  evs.foldl workerStep
    { workerSrcSet := false, promiseSet := false, attempts := 0 }

/-- A JavaScript value as harvestTables may receive it in a text or
hasTextContent field. -/
inductive JsVal where
  | str (s : String)
  | num (n : Int)
  | boolV (b : Bool)
  | nullV
  | undef
deriving DecidableEq, Repr

/-- JavaScript truthiness of such a value. -/
def truthy : JsVal → Bool
  | .str s => s != ""
  | .num n => n != 0
  | .boolV b => b
  | .nullV => false
  | .undef => false

/-- Whether the value is a string. -/
def JsVal.isStr : JsVal → Bool
  | .str _ => true
  | _ => false

/-- A page object as the dynamically-typed harvestTables sees it. -/
structure JsPage where
  index : Nat
  text : JsVal
  hasTextContent : JsVal
deriving DecidableEq, Repr

/-- The flatMap body applied to each page surviving the truthiness filter:
page.text.split(...) succeeds only when text is a string; on any other value
the property access yields no function and a TypeError is thrown, aborting
harvestTables. -/
def harvestTablesJsAux : List JsPage → Except String (List TableCandidate)
  | [] => .ok []
  | p :: rest =>
    match p.text with
    | .str s =>
      match harvestTablesJsAux rest with
      | .ok cs => .ok (candidateLines p.index s ++ cs)
      | .error m => .error m
    | _ => .error "TypeError: page.text.split is not a function"

/-- harvestTables under JavaScript dynamic typing: the filter on line 116
keeps pages whose hasTextContent and text fields are truthy, then the
flatMap on lines 117-124 splits each kept page's text. -/
def harvestTablesJs (pages : List JsPage) : Except String (List TableCandidate) :=
  harvestTablesJsAux
    (pages.filter (fun p => truthy p.hasTextContent && truthy p.text))

/-- The typed view of a well-formed page object (text a string). -/
def coercePage (p : JsPage) : PageResult :=
  { index := p.index,
    text := match p.text with | .str s => s | _ => "",
    hasTextContent := truthy p.hasTextContent,
    error := none }

/-- Boolean check that a list of naturals is non-decreasing left to right. -/
def nondecreasing : List Nat → Bool
  | [] => true
  | [_] => true
  | a :: b :: rest => a ≤ b && nondecreasing (b :: rest)

/-- Boolean check that a list of naturals is strictly increasing. -/
def strictIncreasing : List Nat → Bool
  | [] => true
  | [_] => true
  | a :: b :: rest => a < b && strictIncreasing (b :: rest)

theorem pageResultOf_index (pf : Nat → Except JsErr (List (Option String)))
    (k : Nat) : (pageResultOf pf k).index = k - 1 := by
  unfold pageResultOf
  cases pf k <;> rfl

theorem pageResultOf_htc (pf : Nat → Except JsErr (List (Option String)))
    (k : Nat) :
    (pageResultOf pf k).hasTextContent = ((pageResultOf pf k).text != "") := by
  unfold pageResultOf
  cases pf k <;> simp

theorem runPagesList_none (pf : Nat → Except JsErr (List (Option String)))
    (t : Nat) (ks : List Nat) :
    runPagesList pf t none ks =
      { pages := ks.map (pageResultOf pf), progress := [], thrown := none } := by
  induction ks with
  | nil => rfl
  | cons k ks ih => simp [runPagesList, ih]

theorem runPagesList_noThrow (pf : Nat → Except JsErr (List (Option String)))
    (t : Nat) (ks : List Nat) :
    runPagesList pf t (some (fun _ _ => none)) ks =
      { pages := ks.map (pageResultOf pf),
        progress := ks.map (fun k => jsRound k t), thrown := none } := by
  induction ks with
  | nil => rfl
  | cons k ks ih => simp [runPagesList, ih]

theorem runPagesList_thrown_none_pages
    (pf : Nat → Except JsErr (List (Option String))) (t : Nat)
    (cb : Option (Nat → Nat → Option JsErr)) (ks : List Nat)
    (h : (runPagesList pf t cb ks).thrown = none) :
    (runPagesList pf t cb ks).pages = ks.map (pageResultOf pf) := by
  induction ks with
  | nil => rfl
  | cons k ks ih =>
    cases cb with
    | none =>
      simp only [runPagesList] at h ⊢
      rw [List.map_cons, ih h]
    | some f =>
      simp only [runPagesList] at h ⊢
      revert h
      cases f k (jsRound k t) with
      | some e => intro h; simp at h
      | none =>
        intro h
        simp only at h ⊢
        simp at h ⊢
        exact ih h

theorem runPagesList_throw (pf : Nat → Except JsErr (List (Option String)))
    (t : Nat) (f : Nat → Nat → Option JsErr) (e : JsErr) (k : Nat) :
    ∀ (n s : Nat), s ≤ k → k < s + n →
    (∀ j, s ≤ j → j < k → f j (jsRound j t) = none) →
    f k (jsRound k t) = some e →
    runPagesList pf t (some f) (List.range' s n) =
      { pages := (List.range' s (k + 1 - s)).map (pageResultOf pf),
        progress := (List.range' s (k + 1 - s)).map (fun j => jsRound j t),
        thrown := some e } := by
  intro n
  induction n with
  | zero => intro s h1 h2; omega
  | succ n ih =>
    intro s h1 h2 hnone hthrow
    rw [List.range'_succ s n 1]
    by_cases hsk : s = k
    · subst hsk
      have h1s : s + 1 - s = 1 := by omega
      rw [h1s]
      simp [runPagesList, hthrow, List.range'_one]
    · have hs : s < k := by omega
      have hf : f s (jsRound s t) = none := hnone s le_rfl hs
      have hk1 : k + 1 - s = (k + 1 - (s + 1)) + 1 := by omega
      rw [hk1, List.range'_succ s _ 1]
      simp only [runPagesList, hf]
      rw [ih (s + 1) (by omega) (by omega)
        (fun j hj1 hj2 => hnone j (by omega) hj2) hthrow]
      simp [List.map_cons]

theorem map_index_range' (pf : Nat → Except JsErr (List (Option String)))
    (n : Nat) :
    ((List.range' 1 n).map (pageResultOf pf)).map (fun p => p.index) =
      List.range n := by
  rw [List.map_map]
  have h1 : ((fun p => PageResult.index p) ∘ pageResultOf pf) =
      fun k => k - 1 := funext fun k => pageResultOf_index pf k
  rw [h1, List.range'_eq_map_range 1 n, List.map_map]
  have h2 : ((fun k => k - 1) ∘ (1 + ·)) = id := funext fun i => by simp
  rw [h2, List.map_id]

theorem pages_all_htc (pf : Nat → Except JsErr (List (Option String)))
    (n : Nat) :
    ((List.range' 1 n).map (pageResultOf pf)).all
      (fun p => p.hasTextContent == (p.text != "")) = true := by
  rw [List.all_eq_true]
  intro p hp
  rw [List.mem_map] at hp
  obtain ⟨k, _, rfl⟩ := hp
  rw [pageResultOf_htc]
  exact beq_self_eq_true _

theorem nondecreasing_map_range' (g : Nat → Nat)
    (hg : ∀ k, g k ≤ g (k + 1)) :
    ∀ (n s : Nat), nondecreasing ((List.range' s n).map g) = true := by
  intro n
  induction n with
  | zero => intro s; rfl
  | succ n ih =>
    intro s
    rw [List.range'_succ s n 1]
    cases n with
    | zero => rfl
    | succ m =>
      rw [List.range'_succ (s + 1) m 1]
      simp only [List.map_cons, nondecreasing, Bool.and_eq_true,
        decide_eq_true_eq]
      constructor
      · exact hg s
      · have h2 := ih (s + 1)
        rw [List.range'_succ (s + 1) m 1] at h2
        simpa [List.map_cons, nondecreasing] using h2

theorem getLast_map_range' (g : Nat → Nat) (n : Nat) :
    ((List.range' 1 n).map g).getLast? =
      if n = 0 then none else some (g n) := by
  cases n with
  | zero => rfl
  | succ m =>
    have h : List.range' 1 (m + 1) = List.range' 1 m ++ [1 + m] := by
      simpa using (List.range'_concat 1 m : List.range' 1 (m + 1) 1 = _)
    rw [h, List.map_append]
    simp [Nat.add_comm 1 m]

theorem jsRound_mono (t k : Nat) : jsRound k t ≤ jsRound (k + 1) t := by
  unfold jsRound
  exact Nat.div_le_div_right (by omega)

theorem jsRound_final (n : Nat) (h : 1 ≤ n) : jsRound n n = 100 := by
  unfold jsRound
  exact Nat.div_eq_of_lt_le (by omega) (by omega)

theorem filter_flatMap_eq {α β : Type} (p : α → Bool) (f : α → List β)
    (l : List α) :
    (l.filter p).flatMap f = l.flatMap (fun a => if p a then f a else []) := by
  induction l with
  | nil => rfl
  | cons a l ih =>
    by_cases h : p a = true
    · simp [List.filter_cons, h, ih]
    · simp [List.filter_cons, h, ih]

theorem workerStep_inv (evs : List WorkerEvent) :
    ∀ s : WorkerGlobal,
      (s.promiseSet = false → s.attempts = 0) → s.attempts ≤ 1 →
      ((evs.foldl workerStep s).promiseSet = false →
        (evs.foldl workerStep s).attempts = 0) ∧
      (evs.foldl workerStep s).attempts ≤ 1 := by
  induction evs with
  | nil => intro s h1 h2; exact ⟨h1, h2⟩
  | cons ev evs ih =>
    intro s h1 h2
    rw [List.foldl_cons]
    cases ev with
    | callPrefix =>
      simp only [workerStep]
      split
      · exact ih s h1 h2
      · split
        · exact ih s h1 h2
        · rename_i hp
          apply ih
          · intro hcontra; simp at hcontra
          · have h0 : s.attempts = 0 := h1 (by simpa using hp)
            simp [h0]
    | bodyComplete =>
      apply ih
      · intro hp; exact h1 hp
      · exact h2
    | externalConfigure =>
      apply ih
      · intro hp; exact h1 hp
      · exact h2

theorem extract_of_open_ok (lib : LibState) (file : FileLike)
    (cb : Option (Nat → Nat → Option JsErr)) (d : PdfDoc)
    (hl : lib.loaded = true) (hd : (openAttempt lib).1 = .ok d) :
    extractPdfText lib file cb =
      finishExtract d (openAttempt lib).2.1 (openAttempt lib).2.2 file cb := by
  unfold extractPdfText
  rw [if_neg (by simp [hl]), hd]

theorem finishExtract_cb_none (d : PdfDoc) (disabled : Bool) (attempts : Nat)
    (file : FileLike) :
    finishExtract d disabled attempts file none =
      (.ok { title := jsOrString (effectiveInfo d).Title (stripPdfExt file.name),
             author := jsOrString (effectiveInfo d).Author "Unknown author",
             totalPages := d.numPages,
             pages := (List.range' 1 d.numPages).map (pageResultOf d.pageFn),
             rawSize := file.size, lastModified := file.lastModified },
       { openAttempts := attempts, disabledWorker := disabled,
         processedPages := d.numPages, progressCalls := [],
         cleanedUp := true }) := by
  unfold finishExtract loopOut
  rw [runPagesList_none]
  simp

theorem finishExtract_cb_silent (d : PdfDoc) (disabled : Bool)
    (attempts : Nat) (file : FileLike) :
    finishExtract d disabled attempts file (some (fun _ _ => none)) =
      (.ok { title := jsOrString (effectiveInfo d).Title (stripPdfExt file.name),
             author := jsOrString (effectiveInfo d).Author "Unknown author",
             totalPages := d.numPages,
             pages := (List.range' 1 d.numPages).map (pageResultOf d.pageFn),
             rawSize := file.size, lastModified := file.lastModified },
       { openAttempts := attempts, disabledWorker := disabled,
         processedPages := d.numPages,
         progressCalls := (List.range' 1 d.numPages).map
           (fun k => jsRound k d.numPages),
         cleanedUp := true }) := by
  unfold finishExtract loopOut
  rw [runPagesList_noThrow]
  simp

theorem loopOut_thrown_none_pages (d : PdfDoc)
    (cb : Option (Nat → Nat → Option JsErr))
    (h : (loopOut d cb).thrown = none) :
    (loopOut d cb).pages =
      (List.range' 1 d.numPages).map (pageResultOf d.pageFn) :=
  runPagesList_thrown_none_pages d.pageFn d.numPages cb _ h

theorem extract_ok_cases (lib : LibState) (file : FileLike)
    (cb : Option (Nat → Nat → Option JsErr)) (r : DocumentResult)
    (tr : ExtractTrace) (h : extractPdfText lib file cb = (.ok r, tr)) :
    ∃ d, (openAttempt lib).1 = .ok d ∧
      r.pages = (List.range' 1 d.numPages).map (pageResultOf d.pageFn) ∧
      r.totalPages = d.numPages ∧
      r.title = jsOrString (effectiveInfo d).Title (stripPdfExt file.name) ∧
      r.author = jsOrString (effectiveInfo d).Author "Unknown author" ∧
      tr.cleanedUp = true := by
  by_cases hl : lib.loaded = false
  · have heq : extractPdfText lib file cb =
        (.error (JsErr.err "PDF.js library not loaded"),
         { openAttempts := 0, disabledWorker := false, processedPages := 0,
           progressCalls := [], cleanedUp := false }) := by
      unfold extractPdfText
      rw [if_pos hl]
    rw [heq] at h
    exact absurd h (by simp)
  · have hl2 : lib.loaded = true := by
      revert hl; cases lib.loaded <;> simp
    cases hop : (openAttempt lib).1 with
    | error e =>
      have heq : extractPdfText lib file cb =
          (.error e,
           { openAttempts := (openAttempt lib).2.2,
             disabledWorker := (openAttempt lib).2.1, processedPages := 0,
             progressCalls := [], cleanedUp := false }) := by
        unfold extractPdfText
        rw [if_neg hl, hop]
      rw [heq] at h
      exact absurd h (by simp)
    | ok d =>
      rw [extract_of_open_ok lib file cb d hl2 hop] at h
      refine ⟨d, rfl, ?_⟩
      unfold finishExtract at h
      cases hth : (loopOut d cb).thrown with
      | some e =>
        rw [hth] at h
        exact absurd h (by simp)
      | none =>
        rw [hth] at h
        simp only [Prod.mk.injEq, Except.ok.injEq] at h
        obtain ⟨hr, htr⟩ := h
        subst hr
        subst htr
        exact ⟨loopOut_thrown_none_pages d cb hth, rfl, rfl, rfl, rfl⟩

/-- A library state whose first open yields the given session. -/
def libOf (d : PdfDoc) : LibState :=
  { loaded := true, open1 := .ok d, open2 := .ok d,
    disableWorkerIsBool := false }

/-- A two-page document whose pages both yield one text item "hi". -/
def docTwoPages : PdfDoc :=
  { numPages := 2, pageFn := fun _ => .ok [some "hi"], metadata := .ok none }

/-- A sample input file. -/
def fileA : FileLike := { name := "a.pdf", size := 10, lastModified := 5 }

/-- The result extracting docTwoPages from fileA produces. -/
def resTwoPages : DocumentResult :=
  { title := "a", author := "Unknown author", totalPages := 2,
    pages := [{ index := 0, text := "hi", hasTextContent := true,
                error := none },
              { index := 1, text := "hi", hasTextContent := true,
                error := none }],
    rawSize := 10, lastModified := 5 }

/-- The trace extracting docTwoPages from fileA produces. -/
def trTwoPages : ExtractTrace :=
  { openAttempts := 1, disabledWorker := false, processedPages := 2,
    progressCalls := [], cleanedUp := true }

/-- C1: whenever extractPdfText returns a Document Result, its pages
sequence has length exactly totalPages, the page at position i carries
index i, and every page has hasTextContent exactly when its text is
non-empty. -/
theorem extract_pages_invariant (lib : LibState) (file : FileLike)
    (cb : Option (Nat → Nat → Option JsErr)) (r : DocumentResult)
    (tr : ExtractTrace) (h : extractPdfText lib file cb = (.ok r, tr)) :
    r.pages.length = r.totalPages ∧
    r.pages.map (fun p => p.index) = List.range r.pages.length ∧
    r.pages.all (fun p => p.hasTextContent == (p.text != "")) = true := by
  obtain ⟨d, _, hpag, htot, _⟩ := extract_ok_cases lib file cb r tr h
  have hlen : r.pages.length = d.numPages := by rw [hpag]; simp
  refine ⟨?_, ?_, ?_⟩
  · rw [hlen, htot]
  · rw [hlen, hpag, map_index_range']
  · rw [hpag]
    exact pages_all_htc d.pageFn d.numPages

/-- Witness for C1 at the concrete two-page document. -/
theorem extract_pages_invariant_witness :
    extractPdfText (libOf docTwoPages) fileA none =
      (.ok resTwoPages, trTwoPages) ∧
    (resTwoPages.pages.length = resTwoPages.totalPages ∧
     resTwoPages.pages.map (fun p => p.index) =
       List.range resTwoPages.pages.length ∧
     resTwoPages.pages.all
       (fun p => p.hasTextContent == (p.text != "")) = true) := by
  have h : extractPdfText (libOf docTwoPages) fileA none =
      (.ok resTwoPages, trTwoPages) := by decide
  exact ⟨h, extract_pages_invariant _ _ _ _ _ h⟩

/-- C5: harvestTables keeps exactly the pages with hasTextContent and
non-empty text, splits each kept page's text at sentence boundaries and
newline runs, keeps the lines holding a digit and a colon or comma, and
tags each surviving line with its page's index preserving order; on the
example page it yields exactly the first sentence. -/
theorem harvestTables_pipeline :
    harvestTables [{ index := 0, text := "Revenue: 100, up 5%. Notes here.",
                     hasTextContent := true, error := none }] =
      [{ page := 0, content := "Revenue: 100, up 5%." }] ∧
    ∀ pages : List PageResult,
      harvestTables pages = pages.flatMap (fun p =>
        if p.hasTextContent && p.text != "" then
          ((jsSentenceSplit p.text).filter lineIsCandidate).map
            (fun line => { page := p.index, content := line })
        else []) := by
  constructor
  · decide
  · intro pages
    unfold harvestTables
    rw [filter_flatMap_eq]
    rfl

/-- C7: whenever the worker-inlining path fails, the provisioning body
leaves the configured worker location set, to the previously cached blob
URL or to the remote script URL. -/
theorem worker_src_never_unset (env : WorkerEnv)
    (h : workerFetchFailed env = true) :
    (provisionWorker env).workerSrc.isSome = true ∧
    ((provisionWorker env).workerSrc = env.cachedBlobUrl ∨
     (provisionWorker env).workerSrc = some PDF_WORKER_SOURCE) := by
  have hfb : provisionWorker env = fallbackConfig env := by
    unfold provisionWorker
    unfold workerFetchFailed at h
    cases hc : env.canInlineWorker with
    | false => simp
    | true =>
      rw [hc] at h
      simp only [Bool.not_true, Bool.false_or] at h
      cases hf : env.fetchResult with
      | error e => simp
      | ok resp =>
        rw [hf] at h
        have h2 : (!resp.ok || (match resp.textResult with
            | .error _ => true | .ok _ => false)) = true := h
        cases ho : resp.ok with
        | false => simp [ho]
        | true =>
          rw [ho] at h2
          simp only [Bool.not_true, Bool.false_or] at h2
          cases ht : resp.textResult with
          | error e2 => simp [ho, ht]
          | ok sc => rw [ht] at h2; simp at h2
  rw [hfb]
  unfold fallbackConfig
  cases hcb : env.cachedBlobUrl with
  | none => simp [jsOrString]
  | some sv =>
    by_cases hs : sv = ""
    · subst hs; simp [jsOrString]
    · simp [jsOrString, hs]

/-- A provisioning environment whose fetch rejects with a network error. -/
def envFetchErr : WorkerEnv :=
  { canInlineWorker := true, fetchResult := .error (.err "net down"),
    cachedBlobUrl := none, newBlobUrl := "blob:pdf-worker" }

/-- Witness for C7 on a rejected fetch with no cached blob URL. -/
theorem worker_src_never_unset_witness :
    workerFetchFailed envFetchErr = true ∧
    ((provisionWorker envFetchErr).workerSrc.isSome = true ∧
     ((provisionWorker envFetchErr).workerSrc = envFetchErr.cachedBlobUrl ∨
      (provisionWorker envFetchErr).workerSrc = some PDF_WORKER_SOURCE)) :=
  ⟨by decide, worker_src_never_unset envFetchErr (by decide)⟩

/-- C8: over every interleaving of call prefixes, body completions and
external configuration events, at most one provisioning attempt ever
starts in a process. -/
theorem provisioning_at_most_once (evs : List WorkerEvent) :
    (runWorkerEvents evs).attempts ≤ 1 :=
  (workerStep_inv evs
    { workerSrcSet := false, promiseSet := false, attempts := 0 }
    (fun _ => rfl) (by decide)).2

/-- C2 (amended): a page whose retrieval throws is recorded with empty
text, hasTextContent false and the captured failure message — the thrown
Error's own message, or the fixed fallback for non-Error throws — and
every other page is still processed, the pages list keeping its full
length. -/
theorem page_failure_recorded (lib : LibState) (file : FileLike)
    (d : PdfDoc) (k : Nat) (e : JsErr) (hl : lib.loaded = true)
    (hd : (openAttempt lib).1 = .ok d) (hk1 : 1 ≤ k) (hk2 : k ≤ d.numPages)
    (he : d.pageFn k = .error e) :
    (resultPages (extractPdfText lib file none).1).length = d.numPages ∧
    (resultPages (extractPdfText lib file none).1)[k - 1]? =
      some { index := k - 1, text := "", hasTextContent := false,
             error := some (pageErrorMessage e) } := by
  rw [extract_of_open_ok lib file none d hl hd, finishExtract_cb_none]
  unfold resultPages
  constructor
  · simp
  · simp only []
    rw [List.getElem?_map]
    have hr : (List.range' 1 d.numPages)[k - 1]? = some (1 + (k - 1)) := by
      rw [List.getElem?_eq_getElem (by simp; omega)]
      simp [List.getElem_range']
    rw [hr]
    have hk : 1 + (k - 1) = k := by omega
    rw [hk]
    show some (pageResultOf d.pageFn k) = _
    unfold pageResultOf
    rw [he]

/-- A two-page document whose first page throws an Error "oops". -/
def docPageErr : PdfDoc :=
  { numPages := 2,
    pageFn := fun k => if k == 1 then .error (.err "oops")
                       else .ok [some "x"],
    metadata := .ok none }

/-- Witness for C2 on the first page of docPageErr. -/
theorem page_failure_recorded_witness :
    (libOf docPageErr).loaded = true ∧
    (openAttempt (libOf docPageErr)).1 = .ok docPageErr ∧
    (1 : Nat) ≤ 1 ∧ 1 ≤ docPageErr.numPages ∧
    docPageErr.pageFn 1 = .error (.err "oops") ∧
    ((resultPages (extractPdfText (libOf docPageErr) fileA none).1).length =
       docPageErr.numPages ∧
     (resultPages (extractPdfText (libOf docPageErr) fileA none).1)[0]? =
       some { index := 0, text := "", hasTextContent := false,
              error := some (pageErrorMessage (.err "oops")) }) :=
  ⟨rfl, rfl, by decide, by decide, rfl,
   page_failure_recorded (libOf docPageErr) fileA docPageErr 1 (.err "oops")
     rfl rfl (by decide) (by decide) rfl⟩

/-- A one-page document whose page throws an Error with an empty message. -/
def docEmptyMsg : PdfDoc :=
  { numPages := 1, pageFn := fun _ => .error (.err ""),
    metadata := .ok none }

/-- C2 counterexample: a page retrieval that throws an Error whose message
is the empty string is recorded with error set to the empty string, so the
recorded error string is not always non-empty. -/
theorem page_failure_error_can_be_empty :
    (resultPages (extractPdfText (libOf docEmptyMsg) fileA none).1)[0]? =
      some { index := 0, text := "", hasTextContent := false,
             error := some "" } := by decide

/-- C3 (amended): with a callback that never throws, onProgress is called
exactly numPages times, once per page, with round(pageNumber / totalPages
times 100); the values are non-decreasing and the final one is exactly
100. -/
theorem progress_calls_spec (lib : LibState) (file : FileLike) (d : PdfDoc)
    (f : Nat → Nat → Option JsErr) (hl : lib.loaded = true)
    (hd : (openAttempt lib).1 = .ok d) (hf : f = fun _ _ => none) :
    (extractPdfText lib file (some f)).2.progressCalls =
      (List.range' 1 d.numPages).map (fun k => jsRound k d.numPages) ∧
    (extractPdfText lib file (some f)).2.progressCalls.length = d.numPages ∧
    nondecreasing (extractPdfText lib file (some f)).2.progressCalls =
      true ∧
    (extractPdfText lib file (some f)).2.progressCalls.getLast? =
      (if d.numPages = 0 then none else some 100) := by
  subst hf
  rw [extract_of_open_ok lib file _ d hl hd, finishExtract_cb_silent]
  refine ⟨rfl, by simp, ?_, ?_⟩
  · exact nondecreasing_map_range' _
      (fun k => jsRound_mono d.numPages k) d.numPages 1
  · rw [show ((Except.ok _, _) :
        Except JsErr DocumentResult × ExtractTrace).2.progressCalls =
        (List.range' 1 d.numPages).map (fun k => jsRound k d.numPages)
      from rfl]
    rw [getLast_map_range']
    by_cases h0 : d.numPages = 0
    · rw [if_pos h0, if_pos h0]
    · rw [if_neg h0, if_neg h0, jsRound_final _ (by omega)]

/-- A three-page document with empty pages. -/
def docThree : PdfDoc :=
  { numPages := 3, pageFn := fun _ => .ok [], metadata := .ok none }

/-- Witness for C3 on a three-page document: progress goes 33, 67, 100. -/
theorem progress_calls_spec_witness :
    (libOf docThree).loaded = true ∧
    (openAttempt (libOf docThree)).1 = .ok docThree ∧
    (extractPdfText (libOf docThree) fileA
      (some (fun _ _ => none))).2.progressCalls = [33, 67, 100] ∧
    nondecreasing [33, 67, 100] = true ∧
    (extractPdfText (libOf docThree) fileA
      (some (fun _ _ => none))).2.progressCalls.getLast? = some 100 := by
  have h := progress_calls_spec (libOf docThree) fileA docThree
    (fun _ _ => none) rfl rfl rfl
  refine ⟨rfl, rfl, ?_, by decide, ?_⟩
  · rw [h.1]; decide
  · rw [h.2.2.2]; decide

/-- A 101-page document with empty pages. -/
def docBig : PdfDoc :=
  { numPages := 101, pageFn := fun _ => .ok [], metadata := .ok none }

/-- C3 counterexample: on a 101-page document the extraction succeeds but
the progress values are not strictly increasing — pages 50 and 51 both
report 50 percent. -/
theorem progress_not_strictly_increasing :
    (extractPdfText (libOf docBig) fileA
      (some (fun _ _ => none))).1.toOption.isSome = true ∧
    strictIncreasing ((extractPdfText (libOf docBig) fileA
      (some (fun _ _ => none))).2.progressCalls) = false ∧
    jsRound 50 101 = 50 ∧ jsRound 51 101 = 50 := by decide

/-- C4 (amended): title is the metadata title when present and non-empty,
else the filename with a trailing case-insensitive ".pdf" stripped (so
"Report.PDF" becomes "Report"); author is the metadata author when present
and non-empty, else the literal "Unknown author" — an author field holding
the empty string also falls back. -/
theorem title_author_derivation (lib : LibState) (file : FileLike)
    (cb : Option (Nat → Nat → Option JsErr)) (r : DocumentResult)
    (tr : ExtractTrace) (d : PdfDoc)
    (h : extractPdfText lib file cb = (.ok r, tr))
    (hd : (openAttempt lib).1 = .ok d) :
    r.title = (match (effectiveInfo d).Title with
               | some t => if t = "" then stripPdfExt file.name else t
               | none => stripPdfExt file.name) ∧
    r.author = (match (effectiveInfo d).Author with
                | some a => if a = "" then "Unknown author" else a
                | none => "Unknown author") ∧
    stripPdfExt "Report.PDF" = "Report" := by
  obtain ⟨d2, hd2, _, _, ht, ha, _⟩ := extract_ok_cases lib file cb r tr h
  rw [hd] at hd2
  injection hd2 with hdd
  subst hdd
  exact ⟨ht, ha, by decide⟩

/-- A zero-page document with no metadata title or author. -/
def docReport : PdfDoc :=
  { numPages := 0, pageFn := fun _ => .ok [],
    metadata := .ok (some { Title := none, Author := none }) }

/-- The upper-case-extension file of the worked example. -/
def fileReport : FileLike :=
  { name := "Report.PDF", size := 7, lastModified := 0 }

/-- The result extracting docReport from fileReport produces. -/
def resReport : DocumentResult :=
  { title := "Report", author := "Unknown author", totalPages := 0,
    pages := [], rawSize := 7, lastModified := 0 }

/-- The trace extracting docReport from fileReport produces. -/
def trReport : ExtractTrace :=
  { openAttempts := 1, disabledWorker := false, processedPages := 0,
    progressCalls := [], cleanedUp := true }

/-- Witness for C4: with no metadata title, filename "Report.PDF" yields
title "Report", and the missing author yields "Unknown author". -/
theorem title_author_derivation_witness :
    extractPdfText (libOf docReport) fileReport none =
      (.ok resReport, trReport) ∧
    (openAttempt (libOf docReport)).1 = .ok docReport ∧
    resReport.title = "Report" ∧ resReport.author = "Unknown author" := by
  have h : extractPdfText (libOf docReport) fileReport none =
      (.ok resReport, trReport) := by decide
  have h2 := title_author_derivation (libOf docReport) fileReport none
    resReport trReport docReport h rfl
  exact ⟨h, rfl, h2.1.trans (by decide), h2.2.1.trans (by decide)⟩

/-- A zero-page document whose metadata has title "T" and an author field
holding the empty string. -/
def docEmptyAuthor : PdfDoc :=
  { numPages := 0, pageFn := fun _ => .ok [],
    metadata := .ok (some { Title := some "T", Author := some "" }) }

/-- C4 counterexample: the metadata author field is present (the empty
string), yet the result's author is the "Unknown author" placeholder, so
author does not always equal the metadata author field when present. -/
theorem author_empty_string_defaults :
    (effectiveInfo docEmptyAuthor).Author = some "" ∧
    (extractPdfText (libOf docEmptyAuthor) fileA none).1 =
      .ok { title := "T", author := "Unknown author", totalPages := 0,
            pages := [], rawSize := 10, lastModified := 5 } := by decide

/-- C6 (amended): when the first open fails with a message matching the
worker-failure patterns, the extractor opens exactly twice, sets the
library's disableWorker flag exactly when that property currently holds a
boolean, and either succeeds through the retried open or propagates the
retry's error; a non-matching open failure propagates at once with a
single open attempt. -/
theorem worker_retry_behavior (lib : LibState) (file : FileLike) (e : JsErr)
    (hl : lib.loaded = true) (h1 : lib.open1 = .error e) :
    (workerFailedPattern (jsErrString e) = true →
      (extractPdfText lib file none).2.openAttempts = 2 ∧
      (extractPdfText lib file none).2.disabledWorker =
        lib.disableWorkerIsBool ∧
      (match lib.open2 with
       | .error e2 => (extractPdfText lib file none).1 = .error e2
       | .ok _ => (extractPdfText lib file none).1.toOption.isSome =
           true)) ∧
    (workerFailedPattern (jsErrString e) = false →
      (extractPdfText lib file none).2.openAttempts = 1 ∧
      (extractPdfText lib file none).1 = .error e) := by
  constructor
  · intro hp
    have hoa : openAttempt lib = (lib.open2, lib.disableWorkerIsBool, 2) := by
      simp [openAttempt, h1, hp]
    cases ho2 : lib.open2 with
    | error e2 =>
      have f1 : (openAttempt lib).1 = .error e2 := by rw [hoa, ho2]
      have heq : extractPdfText lib file none =
          (.error e2,
           { openAttempts := (openAttempt lib).2.2,
             disabledWorker := (openAttempt lib).2.1, processedPages := 0,
             progressCalls := [], cleanedUp := false }) := by
        unfold extractPdfText
        rw [if_neg (by simp [hl]), f1]
      rw [heq]
      exact ⟨by rw [hoa], by rw [hoa], rfl⟩
    | ok d2 =>
      have f1 : (openAttempt lib).1 = .ok d2 := by rw [hoa, ho2]
      rw [extract_of_open_ok lib file none d2 hl f1, finishExtract_cb_none]
      exact ⟨by rw [hoa], by rw [hoa], rfl⟩
  · intro hp
    have hoa : openAttempt lib = (.error e, false, 1) := by
      simp [openAttempt, h1, hp]
    have f1 : (openAttempt lib).1 = .error e := by rw [hoa]
    have heq : extractPdfText lib file none =
        (.error e,
         { openAttempts := (openAttempt lib).2.2,
           disabledWorker := (openAttempt lib).2.1, processedPages := 0,
           progressCalls := [], cleanedUp := false }) := by
      unfold extractPdfText
      rw [if_neg (by simp [hl]), f1]
    rw [heq]
    exact ⟨by rw [hoa], rfl⟩

/-- A zero-page document. -/
def docZero : PdfDoc :=
  { numPages := 0, pageFn := fun _ => .ok [], metadata := .ok none }

/-- A library whose first open throws a worker-init failure, whose second
open succeeds, and which exposes a boolean disableWorker property. -/
def libRetry : LibState :=
  { loaded := true,
    open1 := .error (.err "Setting up fake worker failed: boom"),
    open2 := .ok docZero, disableWorkerIsBool := true }

/-- Witness for C6 on a matching failure followed by a successful retry. -/
theorem worker_retry_behavior_witness :
    libRetry.loaded = true ∧
    libRetry.open1 =
      .error (.err "Setting up fake worker failed: boom") ∧
    workerFailedPattern
      (jsErrString (.err "Setting up fake worker failed: boom")) = true ∧
    (extractPdfText libRetry fileA none).2.openAttempts = 2 ∧
    (extractPdfText libRetry fileA none).2.disabledWorker =
      libRetry.disableWorkerIsBool ∧
    (extractPdfText libRetry fileA none).1.toOption.isSome = true := by
  have h := (worker_retry_behavior libRetry fileA
    (.err "Setting up fake worker failed: boom") rfl rfl).1 (by decide)
  exact ⟨rfl, rfl, by decide, h.1, h.2.1, h.2.2⟩

/-- The same library but without a boolean disableWorker property, as in
pdf.js 3.x where that option no longer exists. -/
def libRetryNoFlag : LibState :=
  { loaded := true,
    open1 := .error (.err "Setting up fake worker failed: boom"),
    open2 := .ok docZero, disableWorkerIsBool := false }

/-- C6 counterexample: on a matching worker-init failure the extractor
retries (two open attempts, succeeding), yet out-of-thread execution is
not disabled, because the library exposes no boolean disableWorker
property — so the claim that it always disables and retries fails. -/
theorem worker_retry_without_disable :
    libRetryNoFlag.disableWorkerIsBool = false ∧
    (extractPdfText libRetryNoFlag fileA none).1.toOption.isSome = true ∧
    (extractPdfText libRetryNoFlag fileA none).2.openAttempts = 2 ∧
    (extractPdfText libRetryNoFlag fileA none).2.disabledWorker =
      false := by decide

theorem harvestTables_cons (q : PageResult) (qs : List PageResult) :
    harvestTables (q :: qs) =
      (if q.hasTextContent && q.text != "" then
        candidateLines q.index q.text
       else []) ++ harvestTables qs := by
  unfold harvestTables
  rw [List.filter_cons]
  by_cases hq : (q.hasTextContent && q.text != "") = true
  · rw [if_pos hq, if_pos hq, List.flatMap_cons]
  · rw [if_neg hq, if_neg hq, List.nil_append]

theorem harvestTablesJsAux_cons_str (p : JsPage) (sv : String)
    (ps : List JsPage) (hpt : p.text = .str sv) :
    harvestTablesJsAux (p :: ps) =
      match harvestTablesJsAux ps with
      | .ok cs => .ok (candidateLines p.index sv ++ cs)
      | .error m => .error m := by
  conv_lhs => rw [harvestTablesJsAux]
  rw [hpt]

/-- C9 (amended): harvestTables is pure; on any input whose text fields
are strings — hasTextContent may be any value, with falsy values dropping
the page — it returns normally with the same candidates as the typed
harvestTables; but a non-string truthy text on a truthy-hasTextContent
page throws a TypeError rather than yielding no candidates. -/
theorem harvestTables_total_on_strings (pages : List JsPage)
    (h : pages.all (fun p => p.text.isStr) = true) :
    harvestTablesJs pages = .ok (harvestTables (pages.map coercePage)) := by
  induction pages with
  | nil => rfl
  | cons p rest ih =>
    rw [List.all_cons, Bool.and_eq_true] at h
    obtain ⟨hp, hrest⟩ := h
    have ih2 := ih hrest
    cases hpt : p.text with
    | str sv =>
      have hcond2 : ((coercePage p).hasTextContent &&
          ((coercePage p).text != "")) =
          (truthy p.hasTextContent && truthy p.text) := by
        unfold coercePage
        rw [hpt]
        rfl
      unfold harvestTablesJs at ih2 ⊢
      rw [List.filter_cons, List.map_cons, harvestTables_cons, hcond2]
      by_cases hb : (truthy p.hasTextContent && truthy p.text) = true
      · rw [if_pos hb, if_pos hb,
          harvestTablesJsAux_cons_str p sv _ hpt, ih2]
        have hco : (coercePage p).text = sv := by
          unfold coercePage
          rw [hpt]
        rw [hco]
        rfl
      · rw [if_neg hb, if_neg hb, List.nil_append]
        exact ih2
    | num n => rw [hpt] at hp; simp [JsVal.isStr] at hp
    | boolV b => rw [hpt] at hp; simp [JsVal.isStr] at hp
    | nullV => rw [hpt] at hp; simp [JsVal.isStr] at hp
    | undef => rw [hpt] at hp; simp [JsVal.isStr] at hp

/-- A single well-typed page for the C9 witness. -/
def jsPagesW : List JsPage :=
  [{ index := 0, text := .str "A: 1", hasTextContent := .boolV true }]

/-- Witness for C9 on a well-typed page list. -/
theorem harvestTables_total_on_strings_witness :
    (jsPagesW.all (fun p => p.text.isStr) = true) ∧
    harvestTablesJs jsPagesW =
      .ok (harvestTables (jsPagesW.map coercePage)) ∧
    harvestTablesJs jsPagesW = .ok [{ page := 0, content := "A: 1" }] :=
  ⟨by decide, harvestTables_total_on_strings jsPagesW (by decide),
   by decide⟩

/-- C9 counterexample: a page whose text is the number 42 with a truthy
hasTextContent makes harvestTables throw a TypeError instead of returning
normally with no candidates. -/
theorem harvestTables_throws_on_nonstring :
    harvestTablesJs
      [{ index := 0, text := .num 42, hasTextContent := .boolV true }] =
      .error "TypeError: page.text.split is not a function" := by decide

/-- C10: if the supplied onProgress callback throws on page k, the thrown
value propagates out of extractPdfText in place of a Document Result,
pages after k are not processed, and cleanup is not invoked. -/
theorem onProgress_throw_propagates (lib : LibState) (file : FileLike)
    (d : PdfDoc) (f : Nat → Nat → Option JsErr) (k : Nat) (e : JsErr)
    (hl : lib.loaded = true) (hd : (openAttempt lib).1 = .ok d)
    (hk1 : 1 ≤ k) (hk2 : k ≤ d.numPages)
    (hbefore : (List.range k).all
      (fun j => (f j (jsRound j d.numPages)).isNone) = true)
    (hthrow : f k (jsRound k d.numPages) = some e) :
    (extractPdfText lib file (some f)).1 = .error e ∧
    (extractPdfText lib file (some f)).2.cleanedUp = false ∧
    (extractPdfText lib file (some f)).2.processedPages = k ∧
    (extractPdfText lib file (some f)).2.progressCalls.length = k := by
  have hb : ∀ j, 1 ≤ j → j < k → f j (jsRound j d.numPages) = none := by
    intro j hj1 hj2
    have hm := List.all_eq_true.mp hbefore j (List.mem_range.mpr hj2)
    simpa [Option.isNone_iff_eq_none] using hm
  have hloop : loopOut d (some f) =
      { pages := (List.range' 1 (k + 1 - 1)).map (pageResultOf d.pageFn),
        progress := (List.range' 1 (k + 1 - 1)).map
          (fun j => jsRound j d.numPages),
        thrown := some e } := by
    unfold loopOut
    exact runPagesList_throw d.pageFn d.numPages f e k d.numPages 1 hk1
      (by omega) hb hthrow
  rw [extract_of_open_ok lib file (some f) d hl hd]
  unfold finishExtract
  rw [hloop]
  refine ⟨rfl, rfl, ?_, ?_⟩
  · show ((List.range' 1 (k + 1 - 1)).map (pageResultOf d.pageFn)).length = k
    simp
  · show ((List.range' 1 (k + 1 - 1)).map
      (fun j => jsRound j d.numPages)).length = k
    simp

/-- A callback that throws on its first call. -/
def cbThrowFirst : Nat → Nat → Option JsErr :=
  fun j _ => if j == 1 then some (.err "cb boom") else none

/-- Witness for C10: the callback throws on page 1 of a two-page document;
the error surfaces, one page is processed, cleanup does not run. -/
theorem onProgress_throw_propagates_witness :
    (libOf docTwoPages).loaded = true ∧
    (openAttempt (libOf docTwoPages)).1 = .ok docTwoPages ∧
    (1 : Nat) ≤ 1 ∧ 1 ≤ docTwoPages.numPages ∧
    ((List.range 1).all
      (fun j => (cbThrowFirst j (jsRound j docTwoPages.numPages)).isNone) =
      true) ∧
    cbThrowFirst 1 (jsRound 1 docTwoPages.numPages) =
      some (.err "cb boom") ∧
    ((extractPdfText (libOf docTwoPages) fileA (some cbThrowFirst)).1 =
       .error (.err "cb boom") ∧
     (extractPdfText (libOf docTwoPages) fileA
       (some cbThrowFirst)).2.cleanedUp = false ∧
     (extractPdfText (libOf docTwoPages) fileA
       (some cbThrowFirst)).2.processedPages = 1 ∧
     (extractPdfText (libOf docTwoPages) fileA
       (some cbThrowFirst)).2.progressCalls.length = 1) :=
  ⟨rfl, rfl, by decide, by decide, by decide, by decide,
   onProgress_throw_propagates (libOf docTwoPages) fileA docTwoPages
     cbThrowFirst 1 (.err "cb boom") rfl rfl (by decide) (by decide)
     (by decide) (by decide)⟩

end PdfParser

